import Mathlib

/-
Verification of the h2o-kubernetes deployment core.

The Rust sources build Kubernetes manifests by substituting placeholder
tokens such as <name> into fixed YAML templates with str::replace, and then
deserializing the substituted text with serde_yaml (the codec is treated as
a black box by the design document).  This development embeds:

  * Rust str::replace as a fuel-indexed scan over lists of characters
    (leftmost match, non-overlapping, continue after the replacement);
  * the placeholder substitution chain of statefulset.rs and ingress.rs,
    applied fragment by fragment to the scalar fields of the templates;
  * a conservative model of the YAML codec: deserialization succeeds when
    every substituted scalar stays a well-formed scalar, and the resulting
    typed manifest carries exactly the substituted fragments;
  * the CRD helpers of crd.rs (wait_crd_ready, has_deletion_stamp,
    has_h2o3_finalizer) and the oneOf constraint of the CRD template;
  * the percentage validator of cli/mod.rs.
-/

/-- Embedding of Rust str::replace, fuel-indexed so that the recursion is
structural.  At each step: if the needle is nonempty and is a prefix of the
remaining input, emit the replacement and continue after the matched
needle; otherwise keep one character and continue.  The fuel is an upper
bound on the number of steps; every step consumes at least one character,
so fuel equal to the input length always suffices. -/
def replaceFuel (needle repl : List Char) : Nat → List Char → List Char
  | 0, s => s
  | fuel + 1, s =>
    match s with
    | [] => []
    | c :: rest =>
      if needle ≠ [] && needle.isPrefixOf s then
        repl ++ replaceFuel needle repl fuel (s.drop needle.length)
      else
        c :: replaceFuel needle repl fuel rest

/-- Replace every non-overlapping occurrence of `needle` in `s` by `repl`,
scanning left to right: the list-level meaning of Rust str::replace.
(The Rust sources never call replace with an empty pattern; on an empty
pattern this model is the identity.) -/
def replaceList (needle repl s : List Char) : List Char :=
  replaceFuel needle repl s.length s

/-- String-level wrapper for `replaceList`: the embedding of
`s.replace(needle, repl)` from the Rust sources. -/
def replaceS (s needle repl : String) : String :=
  ⟨replaceList needle.data repl.data s.data⟩

/-
Placeholder tokens of the YAML templates in statefulset.rs and ingress.rs.
The Rust code substitutes them into the template text in this order:
<name>, <namespace>, <docker-img-name>, <docker-img-tag>, <nodes>,
<memory-percentage>, <memory>, <num-cpu>.
-/

def nameTok : String := "<name>"

def namespaceTok : String := "<namespace>"

def imgNameTok : String := "<docker-img-name>"

def imgTagTok : String := "<docker-img-tag>"

def nodesTok : String := "<nodes>"

def pctTok : String := "<memory-percentage>"

def memoryTok : String := "<memory>"

def cpuTok : String := "<num-cpu>"

/-- The substitution chain of h2o_stateful_set (statefulset.rs, lines 55-62):
the eight str::replace calls, in source order, applied to one piece of
template text.  The numeric arguments are substituted through to_string. -/
def chainSubst (name namespace_ docker_img_name docker_img_tag : String)
    (nodes memory_percentage : Nat) (memory : String) (num_cpu : Nat)
    (s : String) : String :=
  replaceS (replaceS (replaceS (replaceS (replaceS (replaceS (replaceS
    (replaceS s nameTok name)
    namespaceTok namespace_)
    imgNameTok docker_img_name)
    imgTagTok docker_img_tag)
    nodesTok (toString nodes))
    pctTok (toString memory_percentage))
    memoryTok memory)
    cpuTok (toString num_cpu)

/-- The substitution chain of h2o_ingress (ingress.rs, lines 24-25): replace
<name>, then <namespace>. -/
def ingressSubst (name namespace_ : String) (s : String) : String :=
  replaceS (replaceS s nameTok name) namespaceTok namespace_

/-
Scalar fragments of STATEFUL_SET_TEMPLATE (statefulset.rs, lines 3-51),
one definition per scalar that the substitution chain can touch.  Constant
scalars of the template (apiVersion, kind, ports, the readiness probe) are
carried as literals below.
-/

def fragMetaName : String := "<name>-stateful-set"

def fragNamespace : String := "<namespace>"

def fragServiceName : String := "h2o-service"

def fragPodManagementPolicy : String := "Parallel"

def fragReplicas : String := "<nodes>"

def fragApp : String := "<name>"

def fragImage : String := "<docker-img-name>:<docker-img-tag>"

def fragJavaCommand : String :=
  "java -XX:+UseContainerSupport -XX:MaxRAMPercentage=<memory-percentage> -jar /opt/h2oai/h2o-3/h2o.jar"

def fragCpu : String := "<num-cpu>"

def fragMemory : String := "<memory>"

def fragDns : String := "<name>-service.<namespace>.svc.cluster.local"

def fragLookupTimeout : String := "180"

def fragExpectedCount : String := "<nodes>"

def fragApiPort : String := "8081"

/-
Scalar fragments of INGRESS_TEMPLATE (ingress.rs, lines 4-21).
-/

def fragIngressMetaName : String := "<name>-ingress"

def fragRewriteTarget : String := "/$2"

def fragFrontendRuleType : String := "PathPrefixStrip"

def fragIngressPath : String := "/<name>"

def fragPathType : String := "Exact"

def fragBackendServiceName : String := "<name>-service"

/-- The single quote character, written by code point to keep string
literals quote-free. -/
def singleQuoteChar : Char := Char.ofNat 39

/-- The newline character. -/
def newlineChar : Char := Char.ofNat 10

/-- The less-than character that opens every placeholder token. -/
def ltChar : Char := Char.ofNat 60

/-- Characters that certainly keep a substituted value a well-formed plain
YAML scalar: letters, digits, dash, dot, underscore, slash.  Part of the
conservative codec model. -/
def safeChar (c : Char) : Bool :=
  c.isAlphanum || c = Char.ofNat 45 || c = Char.ofNat 46 ||
    c = Char.ofNat 95 || c = Char.ofNat 47

/-- Modelled from the spec: the design document treats serialization of
manifests as a black-box codec.  This predicate is a conservative
sufficient condition for a substituted value to parse as a plain
(unquoted) YAML scalar: nonempty and made of safe characters only.  A
value such as "a: b" or one containing a newline breaks the document and
makes serde_yaml fail, which the Rust code turns into a panic via
unwrap. -/
def plainScalarOk (s : String) : Bool :=
  !s.data.isEmpty && s.data.all safeChar

/-- Modelled from the spec: sufficient condition for a substituted value
inside a single-quoted YAML scalar to parse: it contains no single quote
and no newline. -/
def quotedScalarOk (s : String) : Bool :=
  s.data.all fun c => !(c = singleQuoteChar) && !(c = newlineChar)

structure ResourceSpec where
  cpu : String
  memory : String
deriving DecidableEq

structure ContainerResources where
  limits : ResourceSpec
  requests : ResourceSpec
deriving DecidableEq

structure EnvVar where
  name : String
  value : String
deriving DecidableEq

/-- Typed view of the StatefulSet manifest that serde_yaml produces from
the substituted STATEFUL_SET_TEMPLATE: each field carries the
corresponding scalar of the template after the substitution chain.
Constant numeric fields of the template (containerPort 54321, readiness
probe port 8081, delays) are fixed by the template and omitted. -/
structure StatefulSetManifest where
  metadataName : String
  metadataNamespace : String
  serviceName : String
  podManagementPolicy : String
  replicas : String
  selectorMatchApp : String
  templateLabelApp : String
  containerName : String
  image : String
  command : List String
  resources : ContainerResources
  env : List EnvVar
deriving DecidableEq

/-- The manifest fields produced by substituting into
STATEFUL_SET_TEMPLATE, fragment by fragment. -/
def statefulSetFields (name namespace_ docker_img_name docker_img_tag : String)
    (nodes memory_percentage : Nat) (memory : String) (num_cpu : Nat) :
    StatefulSetManifest :=
  let sub := chainSubst name namespace_ docker_img_name docker_img_tag
    nodes memory_percentage memory num_cpu
  { metadataName := sub fragMetaName
    metadataNamespace := sub fragNamespace
    serviceName := sub fragServiceName
    podManagementPolicy := sub fragPodManagementPolicy
    replicas := sub fragReplicas
    selectorMatchApp := sub fragApp
    templateLabelApp := sub fragApp
    containerName := sub fragApp
    image := sub fragImage
    command := [sub "/bin/bash", sub "-c", sub fragJavaCommand]
    resources :=
      { limits := { cpu := sub fragCpu, memory := sub fragMemory }
        requests := { cpu := sub fragCpu, memory := sub fragMemory } }
    env :=
      [ { name := sub "H2O_KUBERNETES_SERVICE_DNS", value := sub fragDns }
      , { name := sub "H2O_NODE_LOOKUP_TIMEOUT", value := sub fragLookupTimeout }
      , { name := sub "H2O_NODE_EXPECTED_COUNT", value := sub fragExpectedCount }
      , { name := sub "H2O_KUBERNETES_API_PORT", value := sub fragApiPort } ] }

/-- Modelled from the spec: the substituted StatefulSet document parses
when every scalar that substitution can touch stays well formed.  The
numeral substitutions (nodes, memory-percentage, num-cpu) always produce
digit strings and cannot break the document. -/
def statefulSetParseOk (name namespace_ docker_img_name docker_img_tag : String)
    (nodes memory_percentage : Nat) (memory : String) (num_cpu : Nat) : Bool :=
  let sub := chainSubst name namespace_ docker_img_name docker_img_tag
    nodes memory_percentage memory num_cpu
  plainScalarOk (sub fragMetaName) && plainScalarOk (sub fragNamespace) &&
    plainScalarOk (sub fragApp) && quotedScalarOk (sub fragImage) &&
    plainScalarOk (sub fragMemory) && plainScalarOk (sub fragDns)

/-- Embedding of h2o_stateful_set (statefulset.rs, lines 53-66): substitute
the eight placeholders into STATEFUL_SET_TEMPLATE and deserialize.  The
none case models the panic of the unwrap on the serde_yaml result. -/
def h2o_stateful_set (name namespace_ docker_img_name docker_img_tag : String)
    (nodes memory_percentage : Nat) (memory : String) (num_cpu : Nat) :
    Option StatefulSetManifest :=
  if statefulSetParseOk name namespace_ docker_img_name docker_img_tag
      nodes memory_percentage memory num_cpu then
    some (statefulSetFields name namespace_ docker_img_name docker_img_tag
      nodes memory_percentage memory num_cpu)
  else
    none

structure IngressPathRule where
  path : String
  pathType : String
  backendServiceName : String
  backendServicePort : Nat
deriving DecidableEq

/-- Typed view of the Ingress manifest produced from INGRESS_TEMPLATE. -/
structure IngressManifest where
  metadataName : String
  rewriteTargetAnnotation : String
  frontendRuleTypeAnnotation : String
  paths : List IngressPathRule
deriving DecidableEq

/-- The ingress manifest fields produced by substituting into
INGRESS_TEMPLATE. -/
def ingressFields (name namespace_ : String) : IngressManifest :=
  let sub := ingressSubst name namespace_
  { metadataName := sub fragIngressMetaName
    rewriteTargetAnnotation := sub fragRewriteTarget
    frontendRuleTypeAnnotation := sub fragFrontendRuleType
    paths :=
      [ { path := sub fragIngressPath
          pathType := sub fragPathType
          backendServiceName := sub fragBackendServiceName
          backendServicePort := 80 } ] }

/-- Modelled from the spec: the substituted Ingress document parses when
the scalars that substitution can touch stay well formed. -/
def ingressParseOk (name namespace_ : String) : Bool :=
  let sub := ingressSubst name namespace_
  plainScalarOk (sub fragIngressMetaName) && plainScalarOk (sub fragIngressPath) &&
    plainScalarOk (sub fragBackendServiceName)

/-- Embedding of h2o_ingress (ingress.rs, lines 23-29). The none case
models the panic of the unwrap on the serde_yaml result. -/
def h2o_ingress (name namespace_ : String) : Option IngressManifest :=
  if ingressParseOk name namespace_ then some (ingressFields name namespace_)
  else none

/-
Embedding of crd.rs: the H2OSpec data model, the oneOf constraint of
H2O_RESOURCE_TEMPLATE, wait_crd_ready, and the two lifecycle predicates.
-/

/-- Embedding of CustomImage (crd.rs, lines 85-91). -/
structure CustomImage where
  image : String
  command : Option String
deriving DecidableEq

/-- Embedding of Resources (crd.rs, lines 56-67). -/
structure Resources where
  cpu : Nat
  memory : String
  memory_percentage : Option Nat
deriving DecidableEq

/-- Embedding of H2OSpec (crd.rs, lines 16-26). -/
structure H2OSpec where
  nodes : Nat
  version : Option String
  resources : Resources
  custom_image : Option CustomImage
deriving DecidableEq

/-- The keys present in the serde serialization of an H2OSpec, in field
order: nodes always, version only when set (skip_serializing_if), resources
always, and custom_image under its serde rename customImage only when set
(crd.rs, lines 19-25). -/
def serializedSpecKeys (s : H2OSpec) : List String :=
  ["nodes"] ++
    (match s.version with | some _ => ["version"] | none => []) ++
    ["resources"] ++
    (match s.custom_image with | some _ => ["customImage"] | none => [])

/-- The oneOf branches of H2O_RESOURCE_TEMPLATE (crd.rs, lines 153-155):
one branch requires the key version, the other requires the key
custom_image (written exactly so in the template). -/
def oneOfBranches : List (List String) :=
  [["version"], ["custom_image"]]

/-- Modelled from the spec: the platform validator is part of the external
orchestration platform, not of these sources.  JSON-Schema oneOf semantics:
a required branch is satisfied when each of its keys is present, and the
document is accepted when exactly one branch is satisfied. -/
def oneOfAccepts (present : List String) : Bool :=
  (oneOfBranches.filter fun branch =>
    branch.all fun k => present.contains k).length == 1

/-- One condition inside the status of a CustomResourceDefinition, as read
by wait_crd_ready (crd.rs, line 226): a kind and a status string. -/
structure CRDCondition where
  type_ : String
  status : String
deriving DecidableEq

/-- The status block of a CustomResourceDefinition: an optional list of
conditions, both optional exactly as the source unwraps them. -/
structure CRDStatusBlock where
  conditions : Option (List CRDCondition)
deriving DecidableEq

/-- The CustomResourceDefinition object carried by a watch event: only the
optional status block is inspected by wait_crd_ready. -/
structure CRDView where
  status : Option CRDStatusBlock
deriving DecidableEq

/-- A notification of the watch subscription (kube WatchEvent): the source
only reacts to the Modified variant (crd.rs, line 223). -/
inductive CRDWatchEvent
  | Added (crd : CRDView)
  | Modified (crd : CRDView)
  | Deleted (crd : CRDView)
deriving DecidableEq

/-- The inner test of wait_crd_ready (crd.rs, lines 224-231): the status
block is present, its conditions are present, the first condition of kind
NamesAccepted is found, and that condition has status True. -/
def namesAccepted (crd : CRDView) : Bool :=
  match crd.status with
  | none => false
  | some st =>
    match st.conditions with
    | none => false
    | some conds =>
      match conds.find? fun c => c.type_ == "NamesAccepted" with
      | none => false
      | some c => c.status == "True"

/-- A watch notification resolves the loop of wait_crd_ready exactly when
it is a Modified event whose CRD passes namesAccepted. -/
def eventResolves : CRDWatchEvent → Bool
  | .Modified crd => namesAccepted crd
  | _ => false

/-- The error kind wait_crd_ready produces on stream exhaustion.  Modelled
from the spec: the crate-level Error enum lives outside these sources; only
its Timeout variant, carrying a message, is needed here. -/
inductive OpError
  | Timeout (msg : String)
deriving DecidableEq

/-- The timeout message of crd.rs, line 235, with the configured duration
in seconds. -/
def timeoutMessage (timeoutSecs : Nat) : String :=
  "H2O Custom Resource not in ready state after " ++ toString timeoutSecs
    ++ " seconds."

/-- The while-let loop of wait_crd_ready (crd.rs, lines 221-235): consume
notifications in order; resolve Ok on the first resolving one; report a
Timeout error when the stream is exhausted. -/
def watchLoop : List CRDWatchEvent → Nat → Except OpError Unit
  | [], timeoutSecs => .error (.Timeout (timeoutMessage timeoutSecs))
  | e :: rest, timeoutSecs =>
    if eventResolves e then .ok () else watchLoop rest timeoutSecs

deriving instance DecidableEq for Except

/-- The outcome of wait_crd_ready together with whether the watch
subscription was opened at all. -/
structure WaitOutcome where
  result : Except OpError Unit
  openedWatch : Bool
deriving DecidableEq

/-- Embedding of wait_crd_ready (crd.rs, lines 209-236).  crdExists is the
result of the existence fast path (crd.rs, lines 198-201, api.get is_ok);
events is the sequence of notifications the bounded watch stream delivers
before it ends; timeoutSecs is the configured timeout in seconds.  The
watch is opened exactly when the fast path fails. -/
def wait_crd_ready (crdExists : Bool) (events : List CRDWatchEvent)
    (timeoutSecs : Nat) : WaitOutcome :=
  if crdExists then { result := .ok (), openedWatch := false }
  else { result := watchLoop events timeoutSecs, openedWatch := true }

/-- Metadata of a live H2O resource, as inspected by the two lifecycle
predicates: an optional deletion timestamp and an optional finalizer
list. -/
structure ObjectMeta where
  deletion_timestamp : Option String
  finalizers : Option (List String)
deriving DecidableEq

/-- A live H2O custom resource: metadata plus its spec. -/
structure H2O where
  metadata : ObjectMeta
  spec : H2OSpec
deriving DecidableEq

/-- Modelled from the spec: the reserved finalizer token of this operator.
Its literal value lives in the finalizer module, which is not among the
sources; no claim depends on the literal value. -/
def FINALIZER_NAME : String := "h2o3.h2o.ai"

/-- Embedding of has_deletion_stamp (crd.rs, lines 246-248). -/
def has_deletion_stamp (h2o : H2O) : Bool :=
  h2o.metadata.deletion_timestamp.isSome

/-- Embedding of has_h2o3_finalizer (crd.rs, lines 259-266). -/
def has_h2o3_finalizer (h2o : H2O) : Bool :=
  match h2o.metadata.finalizers with
  | some finalizers => finalizers.contains FINALIZER_NAME
  | none => false

/-- Embedding of validate_percentage (cli/mod.rs, lines 259-266) on the
parsed integer: the source parses the user string into an i64 first and
then range-checks it. -/
def validate_percentage (number : Int) : Except String Unit :=
  if number < 0 || number > 100 then
    .error "Error: The number must be withing range <0,100>."
  else
    .ok ()

theorem replaceFuel_nil (needle repl : List Char) (fuel : Nat) :
    replaceFuel needle repl fuel [] = [] := by
  cases fuel <;> rfl

theorem replaceFuel_no_occ (needle repl : List Char) :
    ∀ (fuel : Nat) (s : List Char), ¬ (needle <:+: s) →
      replaceFuel needle repl fuel s = s := by
  intro fuel
  induction fuel with
  | zero => intro s _; rfl
  | succ fuel ih =>
    intro s hno
    match s with
    | [] => rfl
    | c :: rest =>
      have hrest : ¬ (needle <:+: rest) := fun h => hno (List.infix_cons h)
      have hcond : (needle ≠ [] && needle.isPrefixOf (c :: rest)) = false := by
        cases hc : (needle ≠ [] && needle.isPrefixOf (c :: rest)) with
        | false => rfl
        | true =>
          exact absurd (List.isPrefixOf_iff_prefix.mp
            ((Bool.and_eq_true _ _ ▸ hc).2)).isInfix hno
      simp only [replaceFuel, hcond, Bool.false_eq_true, if_false]
      rw [ih rest hrest]

theorem replaceFuel_cons_succ (needle repl : List Char) (fuel : Nat) (c : Char)
    (rest : List Char) :
    replaceFuel needle repl (fuel + 1) (c :: rest) =
      if needle ≠ [] && needle.isPrefixOf (c :: rest) then
        repl ++ replaceFuel needle repl fuel ((c :: rest).drop needle.length)
      else
        c :: replaceFuel needle repl fuel rest := rfl

theorem replaceFuel_fuel_irrel (needle repl : List Char) :
    ∀ (f1 f2 : Nat) (s : List Char), s.length ≤ f1 → s.length ≤ f2 →
      replaceFuel needle repl f1 s = replaceFuel needle repl f2 s := by
  intro f1
  induction f1 with
  | zero =>
    intro f2 s hs1 _
    have : s = [] := List.length_eq_zero.mp (Nat.le_zero.mp hs1)
    subst this
    rw [replaceFuel_nil, replaceFuel_nil]
  | succ f1 ih =>
    intro f2 s hs1 hs2
    match s with
    | [] => rw [replaceFuel_nil, replaceFuel_nil]
    | c :: rest =>
      match f2 with
      | 0 => exact absurd hs2 (by simp)
      | f2 + 1 =>
        rw [replaceFuel_cons_succ, replaceFuel_cons_succ]
        cases hc : (needle ≠ [] && needle.isPrefixOf (c :: rest)) with
        | true =>
          rw [if_pos rfl, if_pos rfl]
          have hne : needle ≠ [] := of_decide_eq_true (Bool.and_eq_true _ _ ▸ hc).1
          have hlen : 1 ≤ needle.length :=
            Nat.succ_le_of_lt (List.length_pos.mpr hne)
          have hdrop : ((c :: rest).drop needle.length).length ≤ f1 := by
            rw [List.length_drop]
            simp only [List.length_cons] at hs1 ⊢
            omega
          have hdrop2 : ((c :: rest).drop needle.length).length ≤ f2 := by
            rw [List.length_drop]
            simp only [List.length_cons] at hs2 ⊢
            omega
          rw [ih f2 _ hdrop hdrop2]
        | false =>
          rw [if_neg (by simp), if_neg (by simp)]
          have h1 : rest.length ≤ f1 := by
            simp only [List.length_cons] at hs1; omega
          have h2 : rest.length ≤ f2 := by
            simp only [List.length_cons] at hs2; omega
          rw [ih f2 rest h1 h2]

theorem replaceList_head_match (needle repl t : List Char) (h : needle ≠ []) :
    replaceList needle repl (needle ++ t) = repl ++ replaceList needle repl t := by
  match needle, h with
  | c :: n', _ =>
    have hpre : (c :: n').isPrefixOf ((c :: n') ++ t) = true :=
      List.isPrefixOf_iff_prefix.mpr (List.prefix_append _ _)
    have hcond : ((c :: n') ≠ ([] : List Char) && (c :: n').isPrefixOf ((c :: n') ++ t))
        = true := by simp [hpre]
    show replaceFuel (c :: n') repl (((c :: n') ++ t).length) ((c :: n') ++ t) =
      repl ++ replaceList (c :: n') repl t
    have hlen : ((c :: n') ++ t).length = (n' ++ t).length + 1 := by simp
    rw [hlen]
    rw [show (c :: n') ++ t = c :: (n' ++ t) from rfl]
    rw [replaceFuel_cons_succ]
    rw [if_pos (by exact hcond)]
    have hdrop : (c :: (n' ++ t)).drop (c :: n').length = t := by
      rw [show c :: (n' ++ t) = (c :: n') ++ t from rfl]
      exact List.drop_left _ _
    rw [hdrop]
    rw [replaceFuel_fuel_irrel (c :: n') repl ((n' ++ t)).length t.length t
      (by simp) (Nat.le_refl _)]
    rfl

theorem replaceList_nil_subject (needle repl : List Char) :
    replaceList needle repl [] = [] := rfl

theorem replaceList_self (needle repl : List Char) (h : needle ≠ []) :
    replaceList needle repl needle = repl := by
  have hm := replaceList_head_match needle repl [] h
  rw [List.append_nil] at hm
  rw [hm, replaceList_nil_subject, List.append_nil]

theorem replaceList_append_left (needle repl : List Char) (hc : Char)
    (hhead : needle.head? = some hc) :
    ∀ (a s : List Char), hc ∉ a →
      replaceList needle repl (a ++ s) = a ++ replaceList needle repl s := by
  intro a
  induction a with
  | nil => intro s _; rfl
  | cons c a' ih =>
    intro s ha
    have hcc : hc ≠ c := fun h => ha (h ▸ List.mem_cons_self c a')
    have ha' : hc ∉ a' := fun h => ha (List.mem_cons_of_mem c h)
    have hp : needle.isPrefixOf ((c :: a') ++ s) = false := by
      cases hq : needle.isPrefixOf ((c :: a') ++ s) with
      | false => rfl
      | true =>
        exfalso
        have hpre := List.isPrefixOf_iff_prefix.mp hq
        match needle, hhead with
        | hc :: ntail, rfl =>
          have := (List.cons_prefix_cons.mp hpre).1
          exact hcc this
    show replaceFuel needle repl (((c :: a') ++ s).length) ((c :: a') ++ s) =
      (c :: a') ++ replaceList needle repl s
    rw [show ((c :: a') ++ s).length = (a' ++ s).length + 1 by simp]
    rw [show (c :: a') ++ s = c :: (a' ++ s) from rfl]
    rw [replaceFuel_cons_succ]
    rw [if_neg (fun hcond =>
      Bool.false_ne_true (hp ▸ (Bool.and_eq_true _ _ ▸ hcond).2))]
    rw [show replaceFuel needle repl ((a' ++ s).length) (a' ++ s) =
      replaceList needle repl (a' ++ s) from rfl]
    rw [ih s ha']
    rfl

theorem no_infix_of_mem_not_mem {a : Char} {n s : List Char}
    (h1 : a ∈ n) (h2 : a ∉ s) : ¬ (n <:+: s) := fun h => h2 (h.subset h1)

theorem replaceS_no_occ (s needle repl : String)
    (h : ¬ (needle.data <:+: s.data)) : replaceS s needle repl = s := by
  show String.mk (replaceList needle.data repl.data s.data) = s
  rw [show replaceList needle.data repl.data s.data =
    replaceFuel needle.data repl.data s.data.length s.data from rfl]
  rw [replaceFuel_no_occ _ _ _ _ h]

/-
String-level substitution lemmas used to compute the template fragments.
-/

theorem replaceS_head (n t r : String) (h : n.data ≠ []) :
    replaceS (n ++ t) n r = r ++ replaceS t n r := by
  show String.mk (replaceList n.data r.data (n ++ t).data) = _
  rw [show (n ++ t).data = n.data ++ t.data from rfl,
    replaceList_head_match _ _ _ h]
  rfl

theorem replaceS_self_full (n r : String) (h : n.data ≠ []) :
    replaceS n n r = r := by
  show String.mk (replaceList n.data r.data n.data) = r
  rw [replaceList_self _ _ h]

theorem replaceS_append_left (n r : String) (hc : Char)
    (hh : n.data.head? = some hc) (a s : String) (ha : hc ∉ a.data) :
    replaceS (a ++ s) n r = a ++ replaceS s n r := by
  show String.mk (replaceList n.data r.data (a ++ s).data) = _
  rw [show (a ++ s).data = a.data ++ s.data from rfl,
    replaceList_append_left _ _ hc hh _ _ ha]
  rfl

theorem replaceS_lt_free (s tok r : String) (htok : ltChar ∈ tok.data)
    (hs : ltChar ∉ s.data) : replaceS s tok r = s :=
  replaceS_no_occ _ _ _ (no_infix_of_mem_not_mem htok hs)

theorem lt_not_mem_append {x y : List Char} (hx : ltChar ∉ x)
    (hy : ltChar ∉ y) : ltChar ∉ x ++ y := fun hm =>
  match List.mem_append.mp hm with
  | .inl h => hx h
  | .inr h => hy h

theorem lt_free_append {a b : String} (ha : ltChar ∉ a.data)
    (hb : ltChar ∉ b.data) : ltChar ∉ (a ++ b).data := by
  rw [show (a ++ b).data = a.data ++ b.data from rfl]
  exact lt_not_mem_append ha hb

theorem safe_no_lt {s : String} (h : s.data.all safeChar = true) :
    ltChar ∉ s.data := by
  intro hm
  exact absurd (List.all_eq_true.mp h _ hm) (by decide)

section ChainFragments

variable (name namespace_ docker_img_name docker_img_tag : String)
variable (nodes memory_percentage : Nat) (memory : String) (num_cpu : Nat)

/-- Any piece of template text free of the placeholder-opening character
is left unchanged by the whole substitution chain. -/
theorem chainSubst_lt_free (s : String) (hs : ltChar ∉ s.data) :
    chainSubst name namespace_ docker_img_name docker_img_tag
      nodes memory_percentage memory num_cpu s = s := by
  unfold chainSubst
  rw [replaceS_lt_free s nameTok name (by decide) hs,
    replaceS_lt_free s namespaceTok namespace_ (by decide) hs,
    replaceS_lt_free s imgNameTok docker_img_name (by decide) hs,
    replaceS_lt_free s imgTagTok docker_img_tag (by decide) hs,
    replaceS_lt_free s nodesTok (toString nodes) (by decide) hs,
    replaceS_lt_free s pctTok (toString memory_percentage) (by decide) hs,
    replaceS_lt_free s memoryTok memory (by decide) hs,
    replaceS_lt_free s cpuTok (toString num_cpu) (by decide) hs]

/-- The metadata name scalar: <name>-stateful-set becomes the name followed
by the -stateful-set suffix. -/
theorem chainSubst_metaName (hname : ltChar ∉ name.data) :
    chainSubst name namespace_ docker_img_name docker_img_tag
      nodes memory_percentage memory num_cpu fragMetaName =
      name ++ "-stateful-set" := by
  unfold chainSubst
  have h1 : replaceS fragMetaName nameTok name = name ++ "-stateful-set" := by
    rw [show fragMetaName = nameTok ++ "-stateful-set" by decide,
      replaceS_head nameTok "-stateful-set" name (by decide),
      replaceS_no_occ _ _ _ (by decide)]
  rw [h1]
  have hv : ltChar ∉ (name ++ "-stateful-set").data :=
    lt_free_append hname (by decide)
  rw [replaceS_lt_free _ namespaceTok _ (by decide) hv,
    replaceS_lt_free _ imgNameTok _ (by decide) hv,
    replaceS_lt_free _ imgTagTok _ (by decide) hv,
    replaceS_lt_free _ nodesTok _ (by decide) hv,
    replaceS_lt_free _ pctTok _ (by decide) hv,
    replaceS_lt_free _ memoryTok _ (by decide) hv,
    replaceS_lt_free _ cpuTok _ (by decide) hv]

/-- The namespace scalar: <namespace> becomes the namespace argument. -/
theorem chainSubst_namespace (hns : ltChar ∉ namespace_.data) :
    chainSubst name namespace_ docker_img_name docker_img_tag
      nodes memory_percentage memory num_cpu fragNamespace = namespace_ := by
  unfold chainSubst
  rw [show fragNamespace = namespaceTok from by decide]
  rw [replaceS_no_occ namespaceTok nameTok name (by decide),
    replaceS_self_full namespaceTok namespace_ (by decide)]
  rw [replaceS_lt_free _ imgNameTok _ (by decide) hns,
    replaceS_lt_free _ imgTagTok _ (by decide) hns,
    replaceS_lt_free _ nodesTok _ (by decide) hns,
    replaceS_lt_free _ pctTok _ (by decide) hns,
    replaceS_lt_free _ memoryTok _ (by decide) hns,
    replaceS_lt_free _ cpuTok _ (by decide) hns]

/-- The app label scalar: <name> becomes the name argument. -/
theorem chainSubst_app (hname : ltChar ∉ name.data) :
    chainSubst name namespace_ docker_img_name docker_img_tag
      nodes memory_percentage memory num_cpu fragApp = name := by
  unfold chainSubst
  rw [show fragApp = nameTok from by decide]
  rw [replaceS_self_full nameTok name (by decide)]
  rw [replaceS_lt_free _ namespaceTok _ (by decide) hname,
    replaceS_lt_free _ imgNameTok _ (by decide) hname,
    replaceS_lt_free _ imgTagTok _ (by decide) hname,
    replaceS_lt_free _ nodesTok _ (by decide) hname,
    replaceS_lt_free _ pctTok _ (by decide) hname,
    replaceS_lt_free _ memoryTok _ (by decide) hname,
    replaceS_lt_free _ cpuTok _ (by decide) hname]

end ChainFragments

section ChainFragmentsMore

variable (name namespace_ docker_img_name docker_img_tag : String)
variable (nodes memory_percentage : Nat) (memory : String) (num_cpu : Nat)

/-- The image scalar: <docker-img-name>:<docker-img-tag> becomes the image
name, a colon, and the tag. -/
theorem chainSubst_image (himg : ltChar ∉ docker_img_name.data)
    (htag : ltChar ∉ docker_img_tag.data) :
    chainSubst name namespace_ docker_img_name docker_img_tag
      nodes memory_percentage memory num_cpu fragImage =
      docker_img_name ++ (":" ++ docker_img_tag) := by
  unfold chainSubst
  rw [replaceS_no_occ fragImage nameTok name (by decide),
    replaceS_no_occ fragImage namespaceTok namespace_ (by decide)]
  have h3 : replaceS fragImage imgNameTok docker_img_name =
      docker_img_name ++ ":<docker-img-tag>" := by
    rw [show fragImage = imgNameTok ++ ":<docker-img-tag>" by decide,
      replaceS_head imgNameTok ":<docker-img-tag>" docker_img_name (by decide),
      replaceS_no_occ _ _ _ (by decide)]
  rw [h3]
  have h4 : replaceS (docker_img_name ++ ":<docker-img-tag>") imgTagTok
      docker_img_tag = docker_img_name ++ (":" ++ docker_img_tag) := by
    rw [replaceS_append_left imgTagTok docker_img_tag ltChar (by decide)
      docker_img_name ":<docker-img-tag>" himg]
    rw [show (":<docker-img-tag>" : String) = ":" ++ imgTagTok by decide]
    rw [replaceS_append_left imgTagTok docker_img_tag ltChar (by decide)
      ":" imgTagTok (by decide)]
    rw [replaceS_self_full imgTagTok docker_img_tag (by decide)]
  rw [h4]
  have hv : ltChar ∉ (docker_img_name ++ (":" ++ docker_img_tag)).data :=
    lt_free_append himg (lt_free_append (by decide) htag)
  rw [replaceS_lt_free _ nodesTok _ (by decide) hv,
    replaceS_lt_free _ pctTok _ (by decide) hv,
    replaceS_lt_free _ memoryTok _ (by decide) hv,
    replaceS_lt_free _ cpuTok _ (by decide) hv]

/-- The memory scalar: <memory> becomes the memory argument, provided the
memory argument does not itself contain the later token <num-cpu>. -/
theorem chainSubst_memory (hmem : ¬ (cpuTok.data <:+: memory.data)) :
    chainSubst name namespace_ docker_img_name docker_img_tag
      nodes memory_percentage memory num_cpu fragMemory = memory := by
  unfold chainSubst
  rw [show fragMemory = memoryTok from by decide]
  rw [replaceS_no_occ memoryTok nameTok name (by decide),
    replaceS_no_occ memoryTok namespaceTok namespace_ (by decide),
    replaceS_no_occ memoryTok imgNameTok docker_img_name (by decide),
    replaceS_no_occ memoryTok imgTagTok docker_img_tag (by decide),
    replaceS_no_occ memoryTok nodesTok (toString nodes) (by decide),
    replaceS_no_occ memoryTok pctTok (toString memory_percentage) (by decide),
    replaceS_self_full memoryTok memory (by decide),
    replaceS_no_occ memory cpuTok (toString num_cpu) hmem]

/-- The cpu scalar: <num-cpu> becomes the decimal representation of the
cpu count, for every input. -/
theorem chainSubst_cpu :
    chainSubst name namespace_ docker_img_name docker_img_tag
      nodes memory_percentage memory num_cpu fragCpu = toString num_cpu := by
  unfold chainSubst
  rw [show fragCpu = cpuTok from by decide]
  rw [replaceS_no_occ cpuTok nameTok name (by decide),
    replaceS_no_occ cpuTok namespaceTok namespace_ (by decide),
    replaceS_no_occ cpuTok imgNameTok docker_img_name (by decide),
    replaceS_no_occ cpuTok imgTagTok docker_img_tag (by decide),
    replaceS_no_occ cpuTok nodesTok (toString nodes) (by decide),
    replaceS_no_occ cpuTok pctTok (toString memory_percentage) (by decide),
    replaceS_no_occ cpuTok memoryTok memory (by decide),
    replaceS_self_full cpuTok (toString num_cpu) (by decide)]

/-- The discovery DNS scalar:
<name>-service.<namespace>.svc.cluster.local becomes the name, the
-service. separator, the namespace, and the cluster suffix. -/
theorem chainSubst_dns (hname : ltChar ∉ name.data)
    (hns : ltChar ∉ namespace_.data) :
    chainSubst name namespace_ docker_img_name docker_img_tag
      nodes memory_percentage memory num_cpu fragDns =
      name ++ ("-service." ++ (namespace_ ++ ".svc.cluster.local")) := by
  unfold chainSubst
  have h1 : replaceS fragDns nameTok name =
      name ++ "-service.<namespace>.svc.cluster.local" := by
    rw [show fragDns = nameTok ++ "-service.<namespace>.svc.cluster.local"
      by decide,
      replaceS_head nameTok "-service.<namespace>.svc.cluster.local" name
        (by decide),
      replaceS_no_occ _ _ _ (by decide)]
  rw [h1]
  have h2 : replaceS (name ++ "-service.<namespace>.svc.cluster.local")
      namespaceTok namespace_ =
      name ++ ("-service." ++ (namespace_ ++ ".svc.cluster.local")) := by
    rw [replaceS_append_left namespaceTok namespace_ ltChar (by decide)
      name "-service.<namespace>.svc.cluster.local" hname]
    rw [show ("-service.<namespace>.svc.cluster.local" : String) =
      "-service." ++ (namespaceTok ++ ".svc.cluster.local") by decide]
    rw [replaceS_append_left namespaceTok namespace_ ltChar (by decide)
      "-service." (namespaceTok ++ ".svc.cluster.local") (by decide)]
    rw [replaceS_head namespaceTok ".svc.cluster.local" namespace_ (by decide)]
    rw [replaceS_no_occ _ _ _ (by decide)]
  rw [h2]
  have hv : ltChar ∉
      (name ++ ("-service." ++ (namespace_ ++ ".svc.cluster.local"))).data :=
    lt_free_append hname (lt_free_append (by decide)
      (lt_free_append hns (by decide)))
  rw [replaceS_lt_free _ imgNameTok _ (by decide) hv,
    replaceS_lt_free _ imgTagTok _ (by decide) hv,
    replaceS_lt_free _ nodesTok _ (by decide) hv,
    replaceS_lt_free _ pctTok _ (by decide) hv,
    replaceS_lt_free _ memoryTok _ (by decide) hv,
    replaceS_lt_free _ cpuTok _ (by decide) hv]

end ChainFragmentsMore

section IngressFragments

variable (name namespace_ : String)

/-- The ingress metadata name scalar: <name>-ingress. -/
theorem ingressSubst_metaName (hname : ltChar ∉ name.data) :
    ingressSubst name namespace_ fragIngressMetaName = name ++ "-ingress" := by
  unfold ingressSubst
  rw [show fragIngressMetaName = nameTok ++ "-ingress" by decide,
    replaceS_head nameTok "-ingress" name (by decide),
    replaceS_no_occ "-ingress" nameTok name (by decide)]
  exact replaceS_lt_free (name ++ "-ingress") namespaceTok namespace_ (by decide)
    (lt_free_append hname (by decide))

/-- The ingress path scalar: /<name>. -/
theorem ingressSubst_path (hname : ltChar ∉ name.data) :
    ingressSubst name namespace_ fragIngressPath = "/" ++ name := by
  unfold ingressSubst
  rw [show fragIngressPath = "/" ++ nameTok by decide,
    replaceS_append_left nameTok name ltChar (by decide) "/" nameTok (by decide),
    replaceS_self_full nameTok name (by decide)]
  exact replaceS_lt_free ("/" ++ name) namespaceTok namespace_ (by decide)
    (lt_free_append (by decide) hname)

/-- The ingress backend service scalar: <name>-service. -/
theorem ingressSubst_backend (hname : ltChar ∉ name.data) :
    ingressSubst name namespace_ fragBackendServiceName =
      name ++ "-service" := by
  unfold ingressSubst
  rw [show fragBackendServiceName = nameTok ++ "-service" by decide,
    replaceS_head nameTok "-service" name (by decide),
    replaceS_no_occ "-service" nameTok name (by decide)]
  exact replaceS_lt_free (name ++ "-service") namespaceTok namespace_ (by decide)
    (lt_free_append hname (by decide))

end IngressFragments

/-
Safety helpers for the codec model, and loop lemmas for wait_crd_ready.
-/

theorem all_safe_append {x y : List Char} (hx : x.all safeChar = true)
    (hy : y.all safeChar = true) : (x ++ y).all safeChar = true := by
  rw [List.all_append, hx, hy]
  rfl

theorem data_all_safe_append {a b : String} (ha : a.data.all safeChar = true)
    (hb : b.data.all safeChar = true) :
    (a ++ b).data.all safeChar = true := by
  rw [show (a ++ b).data = a.data ++ b.data from rfl]
  exact all_safe_append ha hb

theorem append_data_ne_nil_right {a b : String} (hb : b.data ≠ []) :
    (a ++ b).data ≠ [] := by
  rw [show (a ++ b).data = a.data ++ b.data from rfl]
  intro h
  exact hb (List.append_eq_nil.mp h).2

theorem append_data_ne_nil_left {a b : String} (ha : a.data ≠ []) :
    (a ++ b).data ≠ [] := by
  rw [show (a ++ b).data = a.data ++ b.data from rfl]
  intro h
  exact ha (List.append_eq_nil.mp h).1

theorem plainScalarOk_of {s : String} (h1 : s.data ≠ [])
    (h2 : s.data.all safeChar = true) : plainScalarOk s = true := by
  unfold plainScalarOk
  have he : s.data.isEmpty = false := by
    cases hd : s.data.isEmpty
    · rfl
    · exact absurd (List.isEmpty_iff.mp hd) h1
  rw [he, h2]
  rfl

theorem safeChar_not_quote (c : Char) (h : safeChar c = true) :
    (!(c = singleQuoteChar) && !(c = newlineChar)) = true := by
  rcases eq_or_ne c singleQuoteChar with rfl | h1
  · exact absurd h (by decide)
  rcases eq_or_ne c newlineChar with rfl | h2
  · exact absurd h (by decide)
  simp [h1, h2]

theorem quotedScalarOk_of {s : String} (h : s.data.all safeChar = true) :
    quotedScalarOk s = true := by
  unfold quotedScalarOk
  rw [List.all_eq_true] at h ⊢
  intro c hc
  exact safeChar_not_quote c (h c hc)

theorem quotedScalarOk_append {a b : String} (ha : quotedScalarOk a = true)
    (hb : quotedScalarOk b = true) : quotedScalarOk (a ++ b) = true := by
  unfold quotedScalarOk at *
  rw [show (a ++ b).data = a.data ++ b.data from rfl, List.all_append, ha, hb]
  rfl

/-- Substituting 3 nodes into the replicas scalar of the template yields
the digit 3, for arbitrary namespace, image, tag and percentage. -/
theorem chainSubst_replicas_c9 (ns img tag : String) (pct : Nat) :
    chainSubst "h2o-test" ns img tag 3 pct "4Gi" 2 fragReplicas = "3" := by
  unfold chainSubst
  rw [show replaceS fragReplicas nameTok "h2o-test" = fragReplicas by decide,
    replaceS_no_occ fragReplicas namespaceTok ns (by decide),
    replaceS_no_occ fragReplicas imgNameTok img (by decide),
    replaceS_no_occ fragReplicas imgTagTok tag (by decide),
    show replaceS fragReplicas nodesTok (toString 3) = "3" by decide,
    replaceS_no_occ "3" pctTok (toString pct) (by decide),
    show replaceS "3" memoryTok "4Gi" = "3" by decide,
    show replaceS "3" cpuTok (toString 2) = "3" by decide]

theorem watchLoop_ok_iff (events : List CRDWatchEvent) (t : Nat) :
    watchLoop events t = .ok () ↔ events.any eventResolves = true := by
  induction events with
  | nil => simp [watchLoop]
  | cons e rest ih =>
    simp only [watchLoop, List.any_cons]
    cases he : eventResolves e with
    | true => simp
    | false => simp [ih]

theorem watchLoop_exhaust (events : List CRDWatchEvent) (t : Nat)
    (h : events.any eventResolves = false) :
    watchLoop events t = .error (.Timeout (timeoutMessage t)) := by
  induction events with
  | nil => rfl
  | cons e rest ih =>
    simp only [List.any_cons] at h
    cases he : eventResolves e with
    | true => rw [he] at h; simp at h
    | false =>
      rw [he] at h
      simp only [Bool.false_or] at h
      simp only [watchLoop, he]
      rw [if_neg (by simp)]
      exact ih h

theorem validate_percentage_ok_iff (n : Int) :
    validate_percentage n = .ok () ↔ (0 ≤ n ∧ n ≤ 100) := by
  unfold validate_percentage
  split_ifs with h
  · simp only [decide_eq_true_eq] at h
    constructor
    · intro hc
      exact absurd hc (by simp)
    · intro hc
      simp at h
      omega
  · simp only [not_lt] at h
    constructor
    · intro _
      simp at h
      omega
    · intro _
      rfl

/-
Claim theorems.
-/

/-- C1 (amended): whenever h2o_stateful_set returns a workload manifest,
its container resource limits equal its container resource requests, the
cpu of both is the decimal representation of num_cpu, and, for every
memory argument that does not contain the later placeholder token
<num-cpu>, the memory of both is the memory argument itself. -/
theorem c1_limits_requests
    (name namespace_ docker_img_name docker_img_tag : String)
    (nodes memory_percentage : Nat) (memory : String) (num_cpu : Nat)
    (m : StatefulSetManifest)
    (h : h2o_stateful_set name namespace_ docker_img_name docker_img_tag
      nodes memory_percentage memory num_cpu = some m) :
    m.resources.limits = m.resources.requests ∧
    m.resources.limits.cpu = toString num_cpu ∧
    (¬ (cpuTok.data <:+: memory.data) → m.resources.limits.memory = memory) := by
  unfold h2o_stateful_set at h
  split_ifs at h with hok
  · have hm := Option.some.inj h
    subst hm
    refine ⟨rfl, ?_, ?_⟩
    · exact chainSubst_cpu name namespace_ docker_img_name docker_img_tag
        nodes memory_percentage memory num_cpu
    · intro hmem
      exact chainSubst_memory name namespace_ docker_img_name docker_img_tag
        nodes memory_percentage memory num_cpu hmem

/-- Witness for C1: at a concrete safe input the manifest exists, its
limits equal its requests and carry cpu 2 and memory 4Gi. -/
theorem c1_witness :
    (h2o_stateful_set "h2o" "default" "h2oai/h2o-open-source-k8s" "3.44" 3 50
      "4Gi" 2).map (fun m => decide (m.resources.limits = m.resources.requests ∧
        m.resources.limits.cpu = "2" ∧ m.resources.limits.memory = "4Gi")) =
      some true := by
  cases he : h2o_stateful_set "h2o" "default" "h2oai/h2o-open-source-k8s"
      "3.44" 3 50 "4Gi" 2 with
  | none =>
    have hs : (h2o_stateful_set "h2o" "default" "h2oai/h2o-open-source-k8s"
      "3.44" 3 50 "4Gi" 2).isSome = true := by decide
    rw [he] at hs
    exact absurd hs (by simp)
  | some m =>
    have hc := c1_limits_requests "h2o" "default" "h2oai/h2o-open-source-k8s"
      "3.44" 3 50 "4Gi" 2 m he
    simp only [Option.map]
    refine congrArg some (decide_eq_true ⟨hc.1, ?_, hc.2.2 (by decide)⟩)
    exact hc.2.1.trans (by decide)

/-- C1 counterexample: with memory argument "<num-cpu>" and num_cpu 2 the
returned manifest carries memory "2" in limits and requests, not the
memory argument, so the claim fails as stated for every input. -/
theorem c1_counterexample :
    (h2o_stateful_set "h2o" "default" "img" "tag" 3 50 "<num-cpu>" 2).map
      (fun m => (m.resources.limits.memory, m.resources.requests.memory)) =
      some ("2", "2") ∧ ("2" : String) ≠ "<num-cpu>" :=
  ⟨by decide, by decide⟩

/-- C2: at identity name h2o-test the workload is named
h2o-test-stateful-set, the ingress h2o-test-ingress with the single exact
path /h2o-test backed by h2o-test-service, and the discovery DNS entry
points at h2o-test-service; but the workload's own serviceName field is
the constant h2o-service, not h2o-test-service, contradicting the
<name>-service convention inside the same template. -/
theorem c2_service_name_mismatch :
    (h2o_stateful_set "h2o-test" "default" "h2oai/h2o-open-source-k8s" "3.44"
      3 50 "4Gi" 2).map
      (fun m => (m.metadataName, m.serviceName,
        (m.env.map fun e => e.value).head?)) =
      some ("h2o-test-stateful-set", "h2o-service",
        some "h2o-test-service.default.svc.cluster.local") ∧
    (h2o_ingress "h2o-test" "default").map
      (fun i => (i.metadataName, i.paths)) =
      some ("h2o-test-ingress",
        [⟨"/h2o-test", "Exact", "h2o-test-service", 80⟩]) ∧
    ("h2o-service" : String) ≠ "h2o-test-service" :=
  ⟨by decide, by decide, by decide⟩

/-- C3: the oneOf constraint of H2O_RESOURCE_TEMPLATE names the key
custom_image while the serializer of H2OSpec writes customImage.  A
specification carrying only a custom image is therefore rejected, and one
carrying both version and custom image is accepted; only the version-only
and neither cases behave as the claim states. -/
theorem c3_oneof_key_mismatch :
    oneOfAccepts (serializedSpecKeys
      ⟨3, none, ⟨2, "4Gi", none⟩, some ⟨"custom/img", none⟩⟩) = false ∧
    oneOfAccepts (serializedSpecKeys
      ⟨3, some "3.44", ⟨2, "4Gi", none⟩, some ⟨"custom/img", none⟩⟩) = true ∧
    oneOfAccepts (serializedSpecKeys
      ⟨3, some "3.44", ⟨2, "4Gi", none⟩, none⟩) = true ∧
    oneOfAccepts (serializedSpecKeys
      ⟨3, none, ⟨2, "4Gi", none⟩, none⟩) = false :=
  ⟨by decide, by decide, by decide, by decide⟩

/-- C4 counterexample: for the name "a: b" the substituted documents stop
being valid YAML, the deserialization fails, and the unwrap panics: the
generators do not return a manifest for every string input. -/
theorem c4_counterexample :
    h2o_stateful_set "a: b" "default" "img" "tag" 1 50 "4Gi" 1 = none ∧
    h2o_ingress "a: b" "default" = none :=
  ⟨by decide, by decide⟩

/-- C4 (amended): h2o_stateful_set and h2o_ingress are deterministic pure
functions, and they return a manifest for every input whose name,
namespace and memory are nonempty strings of safe scalar characters and
whose image name and tag are strings of safe scalar characters. -/
theorem c4_total_on_safe
    (name namespace_ docker_img_name docker_img_tag : String)
    (nodes memory_percentage : Nat) (memory : String) (num_cpu : Nat)
    (hname : name.data.all safeChar = true) (hname0 : name.data ≠ [])
    (hns : namespace_.data.all safeChar = true) (hns0 : namespace_.data ≠ [])
    (himg : docker_img_name.data.all safeChar = true)
    (htag : docker_img_tag.data.all safeChar = true)
    (hmem : memory.data.all safeChar = true) (hmem0 : memory.data ≠ []) :
    (h2o_stateful_set name namespace_ docker_img_name docker_img_tag
      nodes memory_percentage memory num_cpu).isSome = true ∧
    (h2o_ingress name namespace_).isSome = true := by
  have hnameLt := safe_no_lt hname
  have hnsLt := safe_no_lt hns
  have himgLt := safe_no_lt himg
  have htagLt := safe_no_lt htag
  have hmemLt := safe_no_lt hmem
  have hmemInf : ¬ (cpuTok.data <:+: memory.data) :=
    no_infix_of_mem_not_mem (by decide) hmemLt
  constructor
  · have hok : statefulSetParseOk name namespace_ docker_img_name
        docker_img_tag nodes memory_percentage memory num_cpu = true := by
      simp only [statefulSetParseOk]
      rw [chainSubst_metaName name namespace_ docker_img_name docker_img_tag
          nodes memory_percentage memory num_cpu hnameLt,
        chainSubst_namespace name namespace_ docker_img_name docker_img_tag
          nodes memory_percentage memory num_cpu hnsLt,
        chainSubst_app name namespace_ docker_img_name docker_img_tag
          nodes memory_percentage memory num_cpu hnameLt,
        chainSubst_image name namespace_ docker_img_name docker_img_tag
          nodes memory_percentage memory num_cpu himgLt htagLt,
        chainSubst_memory name namespace_ docker_img_name docker_img_tag
          nodes memory_percentage memory num_cpu hmemInf,
        chainSubst_dns name namespace_ docker_img_name docker_img_tag
          nodes memory_percentage memory num_cpu hnameLt hnsLt]
      rw [plainScalarOk_of (append_data_ne_nil_right (by decide))
          (data_all_safe_append hname (by decide)),
        plainScalarOk_of hns0 hns,
        plainScalarOk_of hname0 hname,
        quotedScalarOk_append (quotedScalarOk_of himg)
          (quotedScalarOk_append (by decide) (quotedScalarOk_of htag)),
        plainScalarOk_of hmem0 hmem,
        plainScalarOk_of (append_data_ne_nil_right
            (append_data_ne_nil_left (by decide)))
          (data_all_safe_append hname (data_all_safe_append (by decide)
            (data_all_safe_append hns (by decide))))]
      rfl
    unfold h2o_stateful_set
    rw [if_pos hok]
    rfl
  · have iok : ingressParseOk name namespace_ = true := by
      simp only [ingressParseOk]
      rw [ingressSubst_metaName name namespace_ hnameLt,
        ingressSubst_path name namespace_ hnameLt,
        ingressSubst_backend name namespace_ hnameLt]
      rw [plainScalarOk_of (append_data_ne_nil_right (by decide))
          (data_all_safe_append hname (by decide)),
        plainScalarOk_of (append_data_ne_nil_left (by decide))
          (data_all_safe_append (by decide) hname),
        plainScalarOk_of (append_data_ne_nil_right (by decide))
          (data_all_safe_append hname (by decide))]
      rfl
    unfold h2o_ingress
    rw [if_pos iok]
    rfl

/-- Witness for C4: both generators return a manifest at a concrete safe
input. -/
theorem c4_witness :
    (h2o_stateful_set "h2o" "default" "h2oai/h2o-open-source-k8s" "3.44" 3 50
      "4Gi" 2).isSome = true ∧
    (h2o_ingress "h2o" "default").isSome = true :=
  c4_total_on_safe "h2o" "default" "h2oai/h2o-open-source-k8s" "3.44" 3 50
    "4Gi" 2 (by decide) (by decide) (by decide) (by decide) (by decide)
    (by decide) (by decide) (by decide)

/-- C5 (amended): when the schema does not already exist, wait_crd_ready
resolves Ok exactly when some received Modified notification reports a
NamesAccepted condition with status True; if the stream is exhausted
without such a Modified notification it fails with a Timeout error
carrying the configured duration in seconds. -/
theorem c5_watch_resolution (events : List CRDWatchEvent) (t : Nat) :
    ((wait_crd_ready false events t).result = .ok () ↔
      events.any eventResolves = true) ∧
    (events.any eventResolves = false →
      (wait_crd_ready false events t).result =
        .error (.Timeout (timeoutMessage t))) := by
  constructor
  · show watchLoop events t = .ok () ↔ _
    exact watchLoop_ok_iff events t
  · intro h
    show watchLoop events t = _
    exact watchLoop_exhaust events t h

/-- Witness for C5: a stream whose single Modified notification carries
NamesAccepted with status True resolves Ok. -/
theorem c5_witness :
    (wait_crd_ready false
      [CRDWatchEvent.Modified ⟨some ⟨some [⟨"NamesAccepted", "True"⟩]⟩⟩]
      180).result = .ok () :=
  (c5_watch_resolution
    [CRDWatchEvent.Modified ⟨some ⟨some [⟨"NamesAccepted", "True"⟩]⟩⟩]
    180).1.mpr (by decide)

/-- C5 counterexample: an Added notification reporting NamesAccepted with
status True does not resolve the wait; the stream ends in a Timeout even
though a received notification reported the condition, refuting the claim
as stated. -/
theorem c5_counterexample :
    namesAccepted ⟨some ⟨some [⟨"NamesAccepted", "True"⟩]⟩⟩ = true ∧
    (wait_crd_ready false
      [CRDWatchEvent.Added ⟨some ⟨some [⟨"NamesAccepted", "True"⟩]⟩⟩]
      180).result = .error (.Timeout (timeoutMessage 180)) :=
  ⟨by decide, by decide⟩

/-- C6: when the existence fast path reports the schema installed,
wait_crd_ready returns Ok immediately and opens no watch subscription,
for every stream and every timeout. -/
theorem c6_fast_path (events : List CRDWatchEvent) (timeoutSecs : Nat) :
    wait_crd_ready true events timeoutSecs =
      { result := .ok (), openedWatch := false } := rfl

/-- C7 (amended): validate_percentage accepts exactly the integers of
[0, 100]: it returns Ok for every integer between 0 and 100 and an error
for every integer below 0 or above 100. -/
theorem c7_percentage_range (n : Int) :
    validate_percentage n = .ok () ↔ (0 ≤ n ∧ n ≤ 100) :=
  validate_percentage_ok_iff n

/-- C7 counterexample: the integer 0 lies below the claimed lower bound 1
yet the validator accepts it, refuting the claim that every integer below
1 is rejected. -/
theorem c7_counterexample :
    validate_percentage 0 = .ok () ∧ ((0 : Int) < 1) :=
  ⟨by decide, by decide⟩

/-- C8: has_deletion_stamp is true exactly when the deletion timestamp is
set and ignores the finalizer list, and has_h2o3_finalizer is true exactly
when the reserved finalizer token is a member of the finalizer list, an
absent list counting as not containing it; both are pure functions of the
resource. -/
theorem c8_lifecycle_guard (h2o : H2O) :
    (has_deletion_stamp h2o = true ↔
      h2o.metadata.deletion_timestamp.isSome = true) ∧
    (∀ fs : Option (List String),
      has_deletion_stamp ⟨⟨h2o.metadata.deletion_timestamp, fs⟩, h2o.spec⟩ =
        has_deletion_stamp h2o) ∧
    (has_h2o3_finalizer h2o = true ↔
      FINALIZER_NAME ∈ h2o.metadata.finalizers.getD []) := by
  refine ⟨Iff.rfl, fun fs => rfl, ?_⟩
  unfold has_h2o3_finalizer
  cases hf : h2o.metadata.finalizers with
  | none => simp
  | some fs => simp

/-- C9: for identity name h2o-test with 3 nodes, cpu 2 and memory 4Gi, and
arbitrary namespace, image, tag and memory percentage, every manifest the
generator returns has replicas 3, resource limits and requests cpu 2 and
memory 4Gi, and an environment entry H2O_NODE_EXPECTED_COUNT with value
3. -/
theorem c9_scenario (ns img tag : String) (pct : Nat)
    (m : StatefulSetManifest)
    (h : h2o_stateful_set "h2o-test" ns img tag 3 pct "4Gi" 2 = some m) :
    m.replicas = "3" ∧
    m.resources.limits = { cpu := "2", memory := "4Gi" } ∧
    m.resources.requests = { cpu := "2", memory := "4Gi" } ∧
    (⟨"H2O_NODE_EXPECTED_COUNT", "3"⟩ : EnvVar) ∈ m.env := by
  unfold h2o_stateful_set at h
  split_ifs at h with hok
  have hm := Option.some.inj h
  subst hm
  have hcpu : chainSubst "h2o-test" ns img tag 3 pct "4Gi" 2 fragCpu = "2" :=
    (chainSubst_cpu "h2o-test" ns img tag 3 pct "4Gi" 2).trans (by decide)
  have hmem : chainSubst "h2o-test" ns img tag 3 pct "4Gi" 2 fragMemory =
      "4Gi" :=
    chainSubst_memory "h2o-test" ns img tag 3 pct "4Gi" 2 (by decide)
  have hrep := chainSubst_replicas_c9 ns img tag pct
  have hcnt : chainSubst "h2o-test" ns img tag 3 pct "4Gi" 2
      fragExpectedCount = "3" := by
    rw [show fragExpectedCount = fragReplicas by decide]
    exact hrep
  have hcntName : chainSubst "h2o-test" ns img tag 3 pct "4Gi" 2
      "H2O_NODE_EXPECTED_COUNT" = "H2O_NODE_EXPECTED_COUNT" :=
    chainSubst_lt_free "h2o-test" ns img tag 3 pct "4Gi" 2 _ (by decide)
  refine ⟨hrep, ?_, ?_, ?_⟩
  · show ResourceSpec.mk (chainSubst "h2o-test" ns img tag 3 pct "4Gi" 2
      fragCpu) (chainSubst "h2o-test" ns img tag 3 pct "4Gi" 2 fragMemory) = _
    rw [hcpu, hmem]
  · show ResourceSpec.mk (chainSubst "h2o-test" ns img tag 3 pct "4Gi" 2
      fragCpu) (chainSubst "h2o-test" ns img tag 3 pct "4Gi" 2 fragMemory) = _
    rw [hcpu, hmem]
  · show (⟨"H2O_NODE_EXPECTED_COUNT", "3"⟩ : EnvVar) ∈
      [ (⟨chainSubst "h2o-test" ns img tag 3 pct "4Gi" 2
          "H2O_KUBERNETES_SERVICE_DNS",
         chainSubst "h2o-test" ns img tag 3 pct "4Gi" 2 fragDns⟩ : EnvVar)
      , ⟨chainSubst "h2o-test" ns img tag 3 pct "4Gi" 2
          "H2O_NODE_LOOKUP_TIMEOUT",
         chainSubst "h2o-test" ns img tag 3 pct "4Gi" 2 fragLookupTimeout⟩
      , ⟨chainSubst "h2o-test" ns img tag 3 pct "4Gi" 2
          "H2O_NODE_EXPECTED_COUNT",
         chainSubst "h2o-test" ns img tag 3 pct "4Gi" 2 fragExpectedCount⟩
      , ⟨chainSubst "h2o-test" ns img tag 3 pct "4Gi" 2
          "H2O_KUBERNETES_API_PORT",
         chainSubst "h2o-test" ns img tag 3 pct "4Gi" 2 fragApiPort⟩ ]
    rw [hcnt, hcntName]
    exact List.Mem.tail _ (List.Mem.tail _ (List.Mem.head _))

/-- Witness for C9 at a concrete namespace, image, tag and percentage. -/
theorem c9_witness :
    (h2o_stateful_set "h2o-test" "default" "h2oai/h2o-open-source-k8s" "3.44"
      3 50 "4Gi" 2).map (fun m => decide (m.replicas = "3" ∧
        m.resources.limits = { cpu := "2", memory := "4Gi" } ∧
        m.resources.requests = { cpu := "2", memory := "4Gi" } ∧
        (⟨"H2O_NODE_EXPECTED_COUNT", "3"⟩ : EnvVar) ∈ m.env)) = some true := by
  cases he : h2o_stateful_set "h2o-test" "default" "h2oai/h2o-open-source-k8s"
      "3.44" 3 50 "4Gi" 2 with
  | none =>
    have hs : (h2o_stateful_set "h2o-test" "default"
      "h2oai/h2o-open-source-k8s" "3.44" 3 50 "4Gi" 2).isSome = true := by
      decide
    rw [he] at hs
    exact absurd hs (by simp)
  | some m =>
    simp only [Option.map]
    exact congrArg some (decide_eq_true
      (c9_scenario "default" "h2oai/h2o-open-source-k8s" "3.44" 50 m he))

/-- C10: when the schema does not already exist and no Modified
notification carries the NamesAccepted condition, wait_crd_ready never
resolves Ok and fails with the Timeout error once the stream is
exhausted, even if Added or Deleted notifications carry the condition. -/
theorem c10_only_modified_resolves (events : List CRDWatchEvent) (t : Nat)
    (h : ∀ e ∈ events, eventResolves e = false) :
    (wait_crd_ready false events t).result =
      .error (.Timeout (timeoutMessage t)) ∧
    (wait_crd_ready false events t).result ≠ .ok () := by
  have hany : events.any eventResolves = false := by
    rw [List.any_eq_false]
    intro x hx
    rw [h x hx]
    simp
  constructor
  · show watchLoop events t = _
    exact watchLoop_exhaust events t hany
  · show watchLoop events t ≠ _
    rw [watchLoop_exhaust events t hany]
    exact fun hc => Except.noConfusion hc

/-- Witness for C10: a stream whose Added and Deleted notifications both
carry NamesAccepted True still times out. -/
theorem c10_witness :
    (wait_crd_ready false
      [CRDWatchEvent.Added ⟨some ⟨some [⟨"NamesAccepted", "True"⟩]⟩⟩,
       CRDWatchEvent.Deleted ⟨some ⟨some [⟨"NamesAccepted", "True"⟩]⟩⟩]
      7).result = .error (.Timeout (timeoutMessage 7)) ∧
    (wait_crd_ready false
      [CRDWatchEvent.Added ⟨some ⟨some [⟨"NamesAccepted", "True"⟩]⟩⟩,
       CRDWatchEvent.Deleted ⟨some ⟨some [⟨"NamesAccepted", "True"⟩]⟩⟩]
      7).result ≠ .ok () :=
  c10_only_modified_resolves
    [CRDWatchEvent.Added ⟨some ⟨some [⟨"NamesAccepted", "True"⟩]⟩⟩,
     CRDWatchEvent.Deleted ⟨some ⟨some [⟨"NamesAccepted", "True"⟩]⟩⟩]
    7 (by decide)
